import Mathlib

/-!
Verification development for the synchronization-and-validation pipeline of the
dh-pdf-generator repository.

The definitions below are a shallow embedding of the JavaScript source:

* section JsonModel / PathResolver: scripts/validate-json.js, function getNested
  (JavaScript values are modelled by JsValue; a JavaScript exception is
  modelled by Except.error).
* section TieredValidator: scripts/validate-json.js, function validateJsonSchema.
* section SyncDecision / OrchestratorStep: scripts/auto-generate-from-drive.js,
  function processFiles (per-object branch), function getFileHash.
* section StableDownloader: scripts/auto-generate-from-drive.js, function
  downloadFile together with waitForStableFile.
* section RemoteStore: scripts/auto-generate-from-drive.js, functions
  listJsonFiles and dedupeDriveJsonFiles, and the enumeration order of
  processFiles.

String primitives of the source language (split, endsWith, includes) are
modelled over the character list of the string so that every definition
evaluates by kernel reduction.

Theorems about the claims follow the definitions.
-/

namespace DhPdf

/-! ## String primitives -/

/-- JavaScript path.split with the one-character separator given as a
character: "a.b".split(".") gives ["a","b"], "a..b".split(".") gives
["a","","b"], "".split(".") gives [""]. -/
def splitCharAux (sep : Char) : List Char → List Char → List String
  | [], acc => [String.mk acc.reverse]
  | c :: rest, acc =>
      if c = sep then String.mk acc.reverse :: splitCharAux sep rest []
      else splitCharAux sep rest (c :: acc)

def splitChar (sep : Char) (s : String) : List String :=
  splitCharAux sep s.toList []

/-- JavaScript field.split with the three-character separator of the
structural tier, the characters left bracket, right bracket, dot. -/
def splitBrkDotAux : List Char → List Char → List String
  | '[' :: ']' :: '.' :: rest, acc => String.mk acc.reverse :: splitBrkDotAux rest []
  | c :: rest, acc => splitBrkDotAux rest (c :: acc)
  | [], acc => [String.mk acc.reverse]

def splitBrkDot (s : String) : List String :=
  splitBrkDotAux s.toList []

/-- JavaScript part.endsWith for the two-character suffix of bracket
segments (left bracket then right bracket). -/
def endsWithBrk (s : String) : Bool :=
  match s.toList.reverse with
  | ']' :: '[' :: _ => true
  | _ => false

/-- The segment with its two-character bracket suffix removed
(part.slice(0, -2) respectively the implicit arrayKey of getNested). -/
def dropBrk (s : String) : String :=
  String.mk (s.toList.dropLast.dropLast)

/-- Occurrence of pat as a contiguous part of a character list. -/
def listHasInfix (pat : List Char) : List Char → Bool
  | [] => pat.isEmpty
  | c :: rest => pat.isPrefixOf (c :: rest) || listHasInfix pat rest

/-- JavaScript s.includes(pat) and the Drive query operator contains. -/
def strContains (s pat : String) : Bool :=
  listHasInfix pat.toList s.toList

/-- JavaScript s.endsWith(suffix) for an arbitrary suffix. -/
def strEndsWith (s suffix : String) : Bool :=
  suffix.toList.reverse.isPrefixOf s.toList.reverse

/-! ## JsonModel: JavaScript values as parsed from JSON

A JsValue is a JavaScript runtime value as it can appear while walking a
record parsed from JSON: undefined, null, booleans, numbers (restricted to
integers, which covers every value the claims mention), strings, arrays and
plain objects.  Objects are association lists of own properties; JSON.parse
produces no duplicate keys, and property lookup takes the first match. -/

inductive JsValue where
  | undefined : JsValue
  | null : JsValue
  | bool : Bool → JsValue
  | num : Int → JsValue
  | str : String → JsValue
  | arr : List JsValue → JsValue
  | obj : List (String × JsValue) → JsValue

/-- JavaScript truthiness of a JsValue (undefined, null, false, 0 and the
empty string are falsy; every array and object is truthy). -/
def jsTruthy : JsValue → Bool
  | .undefined => false
  | .null => false
  | .bool b => b
  | .num n => n != 0
  | .str s => s != ""
  | .arr _ => true
  | .obj _ => true

/-- Own-property lookup on an object, first match; a missing key reads as
undefined. -/
def lookupField : List (String × JsValue) → String → JsValue
  | [], _ => .undefined
  | (k, v) :: rest, key => if k = key then v else lookupField rest key

/-- Value of a list of decimal digit characters. -/
def digitsToNat (ds : List Char) : Nat :=
  ds.foldl (fun acc c => 10 * acc + (c.toNat - '0'.toNat)) 0

/-- A string that is a canonical array index ("0", "1", "2", ...; no sign, no
leading zeros).  Only such keys address array elements in JavaScript. -/
def canonIndex (s : String) : Option Nat :=
  match s.toList with
  | [] => none
  | c :: cs =>
      if (c :: cs).all Char.isDigit ∧ (c ≠ '0' ∨ cs = [])
      then some (digitsToNat (c :: cs)) else none

/-- Property read current[key], as used by getNested in the bracket branch.
Reading a property of undefined or null throws a TypeError, modelled by
Except.error.  Arrays expose length and their elements, strings expose
length and their characters (one-character strings), other primitives have
no own properties. -/
def propRead : JsValue → String → Except Unit JsValue
  | .undefined, _ => .error ()
  | .null, _ => .error ()
  | .obj fs, key => .ok (lookupField fs key)
  | .arr xs, key =>
      if key = "length" then .ok (.num xs.length)
      else
        match canonIndex key with
        | some i => .ok ((xs.get? i).getD .undefined)
        | none => .ok .undefined
  | .str s, key =>
      if key = "length" then .ok (.num s.length)
      else
        match canonIndex key with
        | some i =>
            .ok (((s.toList.get? i).map fun c => JsValue.str (String.mk [c])).getD .undefined)
        | none => .ok .undefined
  | _, _ => .ok .undefined

/-- JavaScript parseInt(part, 10): skip leading whitespace, read an optional
sign, then the longest prefix of decimal digits; NaN (modelled by none) if no
digit follows. -/
def parseIntJs (s : String) : Option Int :=
  let cs := s.toList.dropWhile fun c =>
    c = ' ' ∨ c = '\t' ∨ c = '\n' ∨ c = '\r' ∨ c = '\x0b' ∨ c = '\x0c'
  let digitsVal : List Char → Option Nat := fun l =>
    let ds := l.takeWhile Char.isDigit
    if ds.isEmpty then none else some (digitsToNat ds)
  match cs with
  | '-' :: rest => (digitsVal rest).map fun n => -(n : Int)
  | '+' :: rest => (digitsVal rest).map fun n => (n : Int)
  | _ => (digitsVal cs).map fun n => (n : Int)

/-! ## PathResolver: getNested (scripts/validate-json.js lines 5-29)

The loop body of getNested, one case per branch of the source: a segment
ending in brackets reads current[arrayKey] (which throws on a null or
undefined context) and then requires an array; on an array context the
segment is parsed by parseInt and used as an index; an object context
descends by key; any other context returns undefined. -/

def getNestedParts : List String → JsValue → Except Unit JsValue
  | [], current => .ok current
  | part :: rest, current =>
    if endsWithBrk part then
      match propRead current (dropBrk part) with
      | .error e => .error e
      | .ok c =>
        match c with
        | .arr xs => getNestedParts rest (.arr xs)
        | _ => .ok .undefined
    else
      match current with
      | .arr xs =>
          match parseIntJs part with
          | none => .ok .undefined
          | some i =>
              if i < 0 ∨ (xs.length : Int) ≤ i then .ok .undefined
              else getNestedParts rest ((xs.get? i.toNat).getD .undefined)
      | .obj fs => getNestedParts rest (lookupField fs part)
      | _ => .ok .undefined

/-- getNested(obj, path): a falsy root or an empty path resolves to
undefined; otherwise the path is split on dots and walked by
getNestedParts. -/
def getNested (root : JsValue) (path : String) : Except Unit JsValue :=
  if jsTruthy root = false ∨ path = "" then .ok .undefined
  else getNestedParts (splitChar '.' path) root

/-- A path none of whose dot-separated segments carries the bracket
suffix (resolution of such a path can never reach the throwing read). -/
def noBrackets (path : String) : Bool :=
  (splitChar '.' path).all fun p => !endsWithBrk p

/-- The resolved value of a resolution that cannot raise, used to state
properties of such resolutions (an error is collapsed to undefined; every
use is guarded by noBrackets of the path). -/
def resolvedValue (data : JsValue) (path : String) : JsValue :=
  match getNested data path with
  | .ok v => v
  | .error _ => .undefined

/-! ## TieredValidator: validateJsonSchema (scripts/validate-json.js lines 31-136)

The three tier lists exactly as configured in the source. -/

def tier1Required : List String :=
  ["patientFirstName", "patientLastName", "patientDateOfBirth", "patientEmail",
   "reportDate", "diagnosisSummary", "tumors", "whatThisMeans", "testsCompleted",
   "testsNeeded", "treatmentTeam"]

def tier2Recommended : List String :=
  ["diagnosisDate", "resources", "contactInfo", "contactInfo.phone", "contactInfo.email"]

def tier3StructuralRequired : List String :=
  ["tumors[].name", "tumors[].location", "tumors[].stage", "tumors[].grade",
   "tumors[].hormoneReceptorStatus", "tumors[].her2Status",
   "whatThisMeans.goodNews", "whatThisMeans.newOptions", "whatThisMeans.treatmentFocus",
   "testsCompleted[].name", "testsCompleted[].date", "testsCompleted[].explanation",
   "testsNeeded[].name", "testsNeeded[].date", "testsNeeded[].explanation",
   "treatmentTeam.oncologist", "treatmentTeam.surgeon", "treatmentTeam.radiologist"]

/-- The Required-tier and per-element test of the source:
value === undefined || value === null || value === "".  A strict-equality
comparison with the empty string is true only for the empty string itself,
so the numbers 0 and the boolean false are not violations. -/
def requiredViolation : JsValue → Bool
  | .undefined => true
  | .null => true
  | .str s => s == ""
  | _ => false

/-- The plain Structural-tier test of the source:
value === undefined || value === null (an empty string is tolerated). -/
def structuralViolationPlain : JsValue → Bool
  | .undefined => true
  | .null => true
  | _ => false

/-- Tier 1 loop (lines 78-84): one finding per Required field whose resolved
value violates, in list order. -/
def requiredFindings (data : JsValue) : List String → Except Unit (List String)
  | [] => .ok []
  | field :: rest =>
    match getNested data field with
    | .error e => .error e
    | .ok v =>
      match requiredFindings data rest with
      | .error e => .error e
      | .ok tl =>
          .ok (if requiredViolation v then ("Missing required field: " ++ field) :: tl else tl)

/-- Per-element loop of an array-shaped Structural field (lines 96-102):
the sub path is resolved against every element and each violating index is
flagged individually. -/
def elementFindings (arrayKey subPath : String) : Nat → List JsValue → Except Unit (List String)
  | _, [] => .ok []
  | i, x :: rest =>
    match getNested x subPath with
    | .error e => .error e
    | .ok v =>
      match elementFindings arrayKey subPath (i + 1) rest with
      | .error e => .error e
      | .ok tl =>
          .ok (if requiredViolation v then
                ("Missing structural required field: " ++ arrayKey ++ "[" ++ toString i ++ "]." ++ subPath) :: tl
              else tl)

/-- First component of field.split on the bracket-dot separator
(the arrayKey of the destructuring on line 89). -/
def arrayKeyOf (field : String) : String := (splitBrkDot field).headD ""

/-- Second component of field.split on the bracket-dot separator
(the subPath of the destructuring on line 89; the empty string models the
undefined of a missing second component, which getNested treats
identically). -/
def subPathOf (field : String) : String := ((splitBrkDot field).drop 1).headD ""

/-- One Structural field (lines 87-109).  A field containing brackets is
split on the bracket-dot separator into arrayKey and subPath; the arrayKey
must resolve to a non-empty array (one violation otherwise, and no
per-element checks); otherwise every element is checked.  A plain field
violates when it resolves to undefined or null. -/
def structuralFindingsField (data : JsValue) (field : String) : Except Unit (List String) :=
  if strContains field "[]" then
    match getNested data (arrayKeyOf field) with
    | .error e => .error e
    | .ok (.arr xs) =>
        if xs.length = 0 then
          .ok ["Missing or empty array for structural required field: " ++ arrayKeyOf field]
        else elementFindings (arrayKeyOf field) (subPathOf field) 0 xs
    | .ok _ => .ok ["Missing or empty array for structural required field: " ++ arrayKeyOf field]
  else
    match getNested data field with
    | .error e => .error e
    | .ok v =>
        .ok (if structuralViolationPlain v then
              ["Missing structural required field: " ++ field]
             else [])

/-- Tier 3 loop (lines 87-110), concatenating the findings of every
Structural field in list order. -/
def structuralFindings (data : JsValue) : List String → Except Unit (List String)
  | [] => .ok []
  | field :: rest =>
    match structuralFindingsField data field with
    | .error e => .error e
    | .ok xs =>
      match structuralFindings data rest with
      | .error e => .error e
      | .ok tl => .ok (xs ++ tl)

/-- Tier 2 loop (lines 113-118): advisory warnings with the Required-tier
test; they never set the error flag. -/
def recommendedWarnings (data : JsValue) : List String → Except Unit (List String)
  | [] => .ok []
  | field :: rest =>
    match getNested data field with
    | .error e => .error e
    | .ok v =>
      match recommendedWarnings data rest with
      | .error e => .error e
      | .ok tl =>
          .ok (if requiredViolation v then
                ("Recommended field missing or empty: " ++ field) :: tl
              else tl)

mutual
/-- JavaScript string coercion of a JsValue, used by the regular-expression
test of the date field.  Array elements join with commas, null and undefined
elements joining as empty strings. -/
def jsToString : JsValue → String
  | .undefined => "undefined"
  | .null => "null"
  | .bool b => if b then "true" else "false"
  | .num n => toString n
  | .str s => s
  | .arr xs => String.intercalate "," (jsToStringList xs)
  | .obj _ => "[object Object]"

/-- JavaScript string coercion of the elements of an array. -/
def jsToStringList : List JsValue → List String
  | [] => []
  | .undefined :: rest => "" :: jsToStringList rest
  | .null :: rest => "" :: jsToStringList rest
  | v :: rest => jsToString v :: jsToStringList rest
end

/-- The regular expression of line 123: exactly four digits, a dash, two
digits, a dash, two digits. -/
def isYYYYMMDD (s : String) : Bool :=
  match s.toList with
  | [a, b, c, d, e, f, g, h, i, j] =>
      a.isDigit && b.isDigit && c.isDigit && d.isDigit && (e = '-') &&
      f.isDigit && g.isDigit && (h = '-') && i.isDigit && j.isDigit
  | _ => false

/-- Format check of patientDateOfBirth (lines 121-127): performed only when
the field is neither undefined nor null nor the empty string; a mismatch is
an error-tier finding. -/
def dobFindings (data : JsValue) : Except Unit (List String) :=
  match getNested data "patientDateOfBirth" with
  | .error e => .error e
  | .ok .undefined => .ok []
  | .ok .null => .ok []
  | .ok (.str "") => .ok []
  | .ok v => .ok (if isYYYYMMDD (jsToString v) then []
                  else ["patientDateOfBirth must be in YYYY-MM-DD format"])

/-- Result of one validation pass: the error findings (Required, Structural
and format, in emission order), the advisory warnings, and the returned
pass/fail boolean (true only when no error finding exists). -/
structure ValidationRun where
  errorFindings : List String
  warnings : List String
  passed : Bool

/-- validateJsonSchema as a whole: tier 1, then tier 3, then the advisory
tier 2, then the date format check; the function returns false exactly when
some error finding was emitted. -/
def validateJsonSchemaRun (data : JsValue) : Except Unit ValidationRun :=
  match requiredFindings data tier1Required with
  | .error e => .error e
  | .ok t1 =>
    match structuralFindings data tier3StructuralRequired with
    | .error e => .error e
    | .ok t3 =>
      match recommendedWarnings data tier2Recommended with
      | .error e => .error e
      | .ok w =>
        match dobFindings data with
        | .error e => .error e
        | .ok d => .ok ⟨t1 ++ t3 ++ d, w, (t1 ++ t3 ++ d).isEmpty⟩

/-- The boolean result of validateJsonSchema. -/
def validateJsonSchema (data : JsValue) : Except Unit Bool :=
  (validateJsonSchemaRun data).map (·.passed)

/-- A record satisfying every tier, used as sanity input. -/
def sampleValidRecord : JsValue :=
  .obj [("patientFirstName", .str "Jane"), ("patientLastName", .str "Doe"),
        ("patientDateOfBirth", .str "1980-01-02"), ("patientEmail", .str "j@x.org"),
        ("reportDate", .str "2025-11-06"), ("diagnosisSummary", .str "s"),
        ("tumors", .arr [.obj [("name", .str "t"), ("location", .str "l"),
                               ("stage", .str "II"), ("grade", .str "2"),
                               ("hormoneReceptorStatus", .str "+"), ("her2Status", .str "-")]]),
        ("whatThisMeans", .obj [("goodNews", .str "g"), ("newOptions", .str "n"),
                                ("treatmentFocus", .str "f")]),
        ("testsCompleted", .arr [.obj [("name", .str "a"), ("date", .str "d"),
                                       ("explanation", .str "e")]]),
        ("testsNeeded", .arr [.obj [("name", .str "b"), ("date", .str "d"),
                                    ("explanation", .str "e")]]),
        ("treatmentTeam", .obj [("oncologist", .str "o"), ("surgeon", .str "s"),
                                ("radiologist", .str "r")]),
        ("diagnosisDate", .str "2025-01-01"),
        ("resources", .str "r"),
        ("contactInfo", .obj [("phone", .str "p"), ("email", .str "e")])]

/-! ## Pure views of the validator

Because no path handed to getNested by validateJsonSchema carries a
bracket-suffixed segment (the bracketed tier-3 fields are split before
resolution), the validator never observes a thrown TypeError; the following
pure functions compute the same findings without the exception monad, which
the support lemmas below prove. -/

/-- Pure view of the tier 1 loop. -/
def requiredFindingsPure (data : JsValue) (fields : List String) : List String :=
  (fields.filter fun f => requiredViolation (resolvedValue data f)).map
    fun f => "Missing required field: " ++ f

/-- Pure view of the tier 2 loop. -/
def recommendedWarningsPure (data : JsValue) (fields : List String) : List String :=
  (fields.filter fun f => requiredViolation (resolvedValue data f)).map
    fun f => "Recommended field missing or empty: " ++ f

/-- Pure view of the per-element loop of an array-shaped structural
field. -/
def elementFindingsPure (arrayKey subPath : String) : Nat → List JsValue → List String
  | _, [] => []
  | i, x :: rest =>
      if requiredViolation (resolvedValue x subPath) then
        ("Missing structural required field: " ++ arrayKey ++ "[" ++ toString i ++ "]." ++ subPath)
          :: elementFindingsPure arrayKey subPath (i + 1) rest
      else elementFindingsPure arrayKey subPath (i + 1) rest

/-- Pure view of one structural field check. -/
def structuralFieldPure (data : JsValue) (field : String) : List String :=
  if strContains field "[]" then
    match resolvedValue data (arrayKeyOf field) with
    | .arr [] => ["Missing or empty array for structural required field: " ++ arrayKeyOf field]
    | .arr xs => elementFindingsPure (arrayKeyOf field) (subPathOf field) 0 xs
    | _ => ["Missing or empty array for structural required field: " ++ arrayKeyOf field]
  else if structuralViolationPlain (resolvedValue data field) then
    ["Missing structural required field: " ++ field]
  else []

/-- Pure view of the tier 3 loop. -/
def structuralFindingsPure (data : JsValue) (fields : List String) : List String :=
  fields.flatMap (structuralFieldPure data)

/-- Pure view of the date format check. -/
def dobFindingsPure (data : JsValue) : List String :=
  match resolvedValue data "patientDateOfBirth" with
  | .undefined => []
  | .null => []
  | .str "" => []
  | v => if isYYYYMMDD (jsToString v) then []
         else ["patientDateOfBirth must be in YYYY-MM-DD format"]

/-- Pure view of a whole validation pass. -/
def validateRunPure (data : JsValue) : ValidationRun :=
  let errs := requiredFindingsPure data tier1Required
      ++ structuralFindingsPure data tier3StructuralRequired
      ++ dobFindingsPure data
  ⟨errs, recommendedWarningsPure data tier2Recommended, errs.isEmpty⟩

/-- The bracket-freedom side condition of one structural field: after the
split, neither the arrayKey nor the subPath contains a bracket-suffixed
segment; a plain field contains none itself.  Every field of
tier3StructuralRequired satisfies it. -/
def tier3FieldSafe (field : String) : Bool :=
  if strContains field "[]" then
    noBrackets (arrayKeyOf field) && noBrackets (subPathOf field)
  else noBrackets field

/-- A value that is a non-empty array (the passing side of the check on
line 91). -/
def isNonEmptyArr : JsValue → Bool
  | .arr (_ :: _) => true
  | _ => false

/-- The per-index findings the claim describes for an array-shaped
structural field: over the index range of the sequence, each index whose
sub-path value is a violation is flagged individually, in index order. -/
def claimC9ElementFindings (arrayKey subPath : String) (xs : List JsValue) : List String :=
  (List.range xs.length).filterMap fun j =>
    if requiredViolation (resolvedValue (xs.getD j .undefined) subPath)
    then some ("Missing structural required field: " ++ arrayKey ++ "[" ++
          toString j ++ "]." ++ subPath)
    else none

/-! ## RemoteObject and SyncDecision

A DriveFile is a remote object as returned by the Drive listings of
scripts/auto-generate-from-drive.js: identifier, display name, MIME type,
modification timestamp (epoch milliseconds), trashed flag and optional
content digest.  The listing of listJsonFiles (line 163) requests only
id, name, mimeType and modifiedTime, a fact recorded where relevant. -/

structure DriveFile where
  id : Nat
  name : String
  mimeType : String
  modifiedTime : Nat
  trashed : Bool
  md5Checksum : Option String
deriving DecidableEq

/-- Truthiness of an optional string under JavaScript rules: absent (null or
undefined) and the empty string are falsy.  getFileHash returns null when
the local file cannot be read, modelled by none. -/
def truthyHash : Option String → Bool
  | none => false
  | some s => s != ""

inductive SyncDecision where
  | Download : SyncDecision
  | SkipUnchanged : SyncDecision
deriving DecidableEq

/-- The change-detection branch of processFiles (lines 388-408), for a
remote object whose local copy exists: with the force flag the checks are
bypassed and the object is regenerated; otherwise a truthy remote digest
and truthy local digest that compare equal skip the object; otherwise a
missing remote digest together with a local modification time at least the
remote one skips the object; everything else downloads. -/
def syncDecision (forceUpload : Bool) (remoteHash localHash : Option String)
    (localModified driveModified : Nat) : SyncDecision :=
  if forceUpload then .Download
  else if truthyHash remoteHash && truthyHash localHash && remoteHash == localHash then
    .SkipUnchanged
  else if truthyHash remoteHash = false ∧ driveModified ≤ localModified then
    .SkipUnchanged
  else .Download

/-- Modelled from the words of claim C1: the sync decision the claim
describes, reading its clause (b) as the fallback for a digest comparison
that could not be performed because one of the digests is unavailable
(the reading closest to the source; under the broader reading of
"otherwise" the claim departs from the source on even more inputs). -/
def claimC1Decision (forceUpload : Bool) (remoteHash localHash : Option String)
    (localModified driveModified : Nat) : SyncDecision :=
  if forceUpload then .Download
  else if truthyHash remoteHash && truthyHash localHash then
    (if remoteHash == localHash then .SkipUnchanged else .Download)
  else if driveModified ≤ localModified then .SkipUnchanged
  else .Download

/-! ## OrchestratorStep: the per-object loop body of processFiles
(scripts/auto-generate-from-drive.js lines 347-450, remote-object branch)

The state of the local copy and the responses of the collaborators during
one object are inputs of the step. -/

/-- The local file at data/name, when present: whether its content parses
as JSON (the pre-emptive check of line 379), its modification time, and the
getFileHash digest (none models the null of a read failure). -/
structure LocalFileInfo where
  parses : Bool
  mtime : Nat
  hash : Option String

/-- External responses observed while processing one remote object:
the local copy (none when data/name does not exist, in which case the
pre-emptive readFileSync throws ENOENT), the terminal result of
downloadFile, the return value of generatePDF (generatePDF catches every
internal error and returns null, modelled by none), the existence check on
the returned artifact path, and the uploader result. -/
structure StepEnv where
  localInfo : Option LocalFileInfo
  downloadOk : Bool
  genResult : Option String
  pdfExistsAfter : Bool
  uploadOk : Bool

/-- Observable effects of processing one remote object: entries appended to
the errors, skippedFiles and uploadedPDFs accumulators, and whether
downloadFile respectively generatePDF were invoked. -/
structure StepEffects where
  errorsAdded : List String
  skippedAdded : List String
  uploadedAdded : List String
  downloadInvoked : Bool
  generateInvoked : Bool

/-- One iteration of the processFiles loop for a remote (non local-only)
object.  In source order: the missing-name guard (line 368); the pre-emptive
parse of the local copy (line 379), whose failure — including the
file-not-found throw when no local copy exists — records an error and skips
the object; the change detection of lines 388-408 (the local copy exists
here, since the pre-emptive read succeeded); the download (line 414), whose
terminal failure records an error; PDF generation (line 425), where a null
return leads to the no-PDF branch of line 447 that records the object as
skipped; and the upload of an existing artifact, whose failure records an
error. -/
def processRemoteFile (forceUpload : Bool) (file : DriveFile) (env : StepEnv) : StepEffects :=
  if file.name = "" then
    ⟨[], ["unknown"], [], false, false⟩
  else
    match env.localInfo with
    | none => ⟨[file.name], [], [], false, false⟩
    | some info =>
      if info.parses = false then ⟨[file.name], [], [], false, false⟩
      else if syncDecision forceUpload file.md5Checksum info.hash info.mtime
                file.modifiedTime = .SkipUnchanged then
        ⟨[], [file.name], [], false, false⟩
      else if env.downloadOk = false then ⟨[file.name], [], [], true, false⟩
      else
        match env.genResult with
        | none => ⟨[], [file.name], [], true, true⟩
        | some p =>
          if env.pdfExistsAfter then
            if env.uploadOk then ⟨[], [], [p], true, true⟩
            else ⟨[p], [], [], true, true⟩
          else ⟨[], [file.name], [], true, true⟩

/-- The three accumulator arrays of processFiles (lines 242-244); the final
summary (lines 453-465) prints their lengths. -/
structure PassState where
  skippedFiles : List String
  uploadedPDFs : List String
  errors : List String

/-- Appending the effects of one object to the accumulators. -/
def applyStep (s : PassState) (eff : StepEffects) : PassState :=
  ⟨s.skippedFiles ++ eff.skippedAdded, s.uploadedPDFs ++ eff.uploadedAdded,
   s.errors ++ eff.errorsAdded⟩

/-- The whole remote-object loop: every enumerated object is processed in
order and the accumulators grow monotonically; no per-object outcome stops
the loop, so the pass always reaches the summary. -/
def runPass (forceUpload : Bool) (items : List (DriveFile × StepEnv)) : PassState :=
  items.foldl (fun s fe => applyStep s (processRemoteFile forceUpload fe.1 fe.2)) ⟨[], [], []⟩

/-- The effects of one enumerated object, as a function of the pair. -/
def stepOf (forceUpload : Bool) (fe : DriveFile × StepEnv) : StepEffects :=
  processRemoteFile forceUpload fe.1 fe.2

/-! ## RemoteStore: listings, deduplication and enumeration order
(scripts/auto-generate-from-drive.js lines 137-177, 261-341)

A remote store is the list of objects of the data folder. -/

/-- The listing of listJsonFiles (line 161): objects whose name contains
".json" and that are not trashed. -/
def listJsonFilesQuery (store : List DriveFile) : List DriveFile :=
  store.filter fun f => !f.trashed && strContains f.name ".json"

/-- The listing used by dedupeDriveJsonFiles (line 275): objects of MIME
type application/json that are not trashed. -/
def dedupeListing (store : List DriveFile) : List DriveFile :=
  store.filter fun f => !f.trashed && f.mimeType == "application/json"

/-- Grouping step of the reduce on line 282: append the file to the group
of its name, creating the group at the end on first sight. -/
def insertGroup : List (String × List DriveFile) → DriveFile → List (String × List DriveFile)
  | [], f => [(f.name, [f])]
  | (n, g) :: rest, f =>
      if n = f.name then (n, g ++ [f]) :: rest else (n, g) :: insertGroup rest f

/-- files.reduce of line 282: groups keyed by display name in first-seen
order, each group listing its objects in listing order. -/
def groupByName (fs : List DriveFile) : List (String × List DriveFile) :=
  fs.foldl insertGroup []

/-- Stable insertion by descending modification time: a file passes every
strictly older file and stops at the first file at least as recent, so
files with equal timestamps keep their relative listing order. -/
def insertByTimeDesc (f : DriveFile) : List DriveFile → List DriveFile
  | [] => [f]
  | g :: gs =>
      if g.modifiedTime < f.modifiedTime then f :: g :: gs
      else g :: insertByTimeDesc f gs

/-- group.sort of line 290 (descending by modifiedTime); JavaScript array
sort is stable, modelled by stable insertion. -/
def sortByTimeDesc (fs : List DriveFile) : List DriveFile :=
  fs.foldl (fun acc f => insertByTimeDesc f acc) []

/-- The duplicates trashed for one name group (lines 288-299): for a group
of more than one object, everything after the newest in the descending
order; smaller groups are untouched. -/
def groupTrashed (g : List DriveFile) : List DriveFile :=
  if 1 < g.length then (sortByTimeDesc g).tail else []

/-- Identifiers tombstoned by dedupeDriveJsonFiles over the whole store. -/
def dedupeTrashedIds (store : List DriveFile) : List Nat :=
  (groupByName (dedupeListing store)).flatMap fun ng => (groupTrashed ng.2).map (·.id)

/-- A DriveFile with its trashed flag set, the effect of the files.update
tombstone request of line 293. -/
def setTrashed (f : DriveFile) : DriveFile :=
  ⟨f.id, f.name, f.mimeType, f.modifiedTime, true, f.md5Checksum⟩

/-- The store after dedupeDriveJsonFiles has issued all tombstone
requests. -/
def applyDedupe (store : List DriveFile) : List DriveFile :=
  store.map fun f => if (dedupeTrashedIds store).contains f.id then setTrashed f else f

/-- What the orchestrator obtains from the remote store, in execution
order (lines 262, 315): the listJsonFiles enumeration is captured first and
is the list the loop later iterates; the tombstone requests of
dedupeDriveJsonFiles are issued against the store afterwards and do not
alter the captured enumeration. -/
structure EnumerationResult where
  iteratedDriveFiles : List DriveFile
  storeAfter : List DriveFile

/-- Lines 262-315 of processFiles in order: first the enumeration used by
the loop, then deduplication as a store mutation. -/
def enumerationPipeline (store : List DriveFile) : EnumerationResult :=
  let driveFiles := listJsonFilesQuery store
  let after := applyDedupe store
  ⟨driveFiles, after⟩

/-- A store holding two untrashed JSON objects with the same display name
and distinct modification times. -/
def dupStoreExample : List DriveFile :=
  [⟨1, "a.json", "application/json", 10, false, none⟩,
   ⟨2, "a.json", "application/json", 20, false, none⟩]

/-- Lines 266-268: local directory entries ending in ".json" whose name
does not occur among the enumerated remote names. -/
def localOnlyCandidates (dirListing : List String) (driveFiles : List DriveFile) : List String :=
  dirListing.filter fun f =>
    strEndsWith f ".json" && !((driveFiles.map (·.name)).contains f)

/-- Lines 318-321: the name-to-modifiedTime map built from the same
enumeration, later assignments overwriting earlier ones. -/
def driveFileMapLookup (driveFiles : List DriveFile) (name : String) : Option Nat :=
  ((driveFiles.filter fun df => df.name == name).getLast?).map (·.modifiedTime)

/-- Lines 324-335: the timestamp filter over the local-only candidates.
localMtime models the existsSync/statSync pair (none when the file does not
exist). -/
def filteredLocalCandidates (dirListing : List String) (driveFiles : List DriveFile)
    (localMtime : String → Option Nat) : List String :=
  (localOnlyCandidates dirListing driveFiles).filter fun n =>
    match driveFileMapLookup driveFiles n with
    | some driveMod =>
        match localMtime n with
        | some lm => if lm ≤ driveMod then false else true
        | none => true
    | none => true

/-! ## StableDownloader: downloadFile with waitForStableFile
(scripts/auto-generate-from-drive.js lines 10-22 and 179-238)

One streaming attempt ends in one of four ways; an oracle indexed by the
number of streams already performed supplies the outcome of each attempt. -/

inductive DlOutcome where
  | streamFailure : DlOutcome
  | neverStabilized : DlOutcome
  | corrupt : DlOutcome
  | success : DlOutcome

/-- Result of a downloadFile call: the value or error surfaced to the
caller, the number of streaming attempts performed (drive.files.get calls),
and the waits taken before retries, in milliseconds and in order. -/
structure DlRun where
  result : Except String Unit
  streams : Nat
  delays : List Nat

/-- The MAX_RETRIES constant of line 184. -/
def MAX_RETRIES : Nat := 3

/-- downloadFile(drive, fileId, destPath, attempt).  The argument k counts
the streams already performed, indexing the oracle.  A stream or
stabilization failure rejects the enclosing promise and reaches the outer
catch (line 227), which waits 500 times the attempt number and re-invokes
with attempt + 1, or throws the terminal error once attempt reaches
MAX_RETRIES.  A parse failure after stabilization (line 209) retries inside
the finish handler by resolving with a recursive call (line 214); when that
recursive call itself fails, the rejection propagates to the outer catch of
the same invocation, which being below MAX_RETRIES retries once more with
the same attempt number sequence — so a corrupt attempt below the bound
triggers up to two recursive descents.  At the bound, the inner rejection
of line 216 is replaced in the outer catch by the terminal error of line
235. -/
def downloadFile (oracle : Nat → DlOutcome) (destPath : String) (k attempt : Nat) : DlRun :=
  match oracle k with
  | .success => ⟨.ok (), 1, []⟩
  | .streamFailure | .neverStabilized =>
    if h : attempt < MAX_RETRIES then
      let r := downloadFile oracle destPath (k + 1) (attempt + 1)
      ⟨r.result, 1 + r.streams, 500 * attempt :: r.delays⟩
    else ⟨.error ("Failed to download " ++ destPath ++ " after 3 attempts"), 1, []⟩
  | .corrupt =>
    if h : attempt < MAX_RETRIES then
      let r := downloadFile oracle destPath (k + 1) (attempt + 1)
      match r.result with
      | .ok _ => ⟨.ok (), 1 + r.streams, 500 * attempt :: r.delays⟩
      | .error _ =>
        let r2 := downloadFile oracle destPath (k + 1 + r.streams) (attempt + 1)
        ⟨r2.result, 1 + r.streams + r2.streams,
         (500 * attempt :: r.delays) ++ 500 * attempt :: r2.delays⟩
    else ⟨.error ("Failed to download " ++ destPath ++ " after 3 attempts"), 1, []⟩
termination_by MAX_RETRIES - attempt
decreasing_by all_goals (simp [MAX_RETRIES] at h ⊢; omega)

/-! ## Sanity checks on concrete inputs -/

example : getNested (.obj [("a", .num 1)]) "a" = .ok (.num 1) := rfl
example : getNested (.obj [("a", .num 1)]) "b" = .ok .undefined := rfl
example : getNested (.obj [("a", .arr [.str "x"])]) "a.0" = .ok (.str "x") := rfl
example : getNested (.obj [("a", .arr [.str "x"])]) "a[]" = .ok (.arr [.str "x"]) := rfl
example : getNested (.obj [("a", .obj [("b", .null)])]) "a.b.c" = .ok .undefined := rfl
example : getNested (.obj [("a", .arr [.str "x", .str "y"])]) "a.1x" = .ok (.str "y") := rfl
example : validateJsonSchema sampleValidRecord = .ok true := rfl
example : validateJsonSchema (.obj []) = .ok false := rfl
example : requiredViolation (.num 0) = false := rfl
example : requiredViolation (.bool false) = false := rfl
example : requiredViolation (.str "") = true := rfl

/-! ## Support lemmas -/

lemma getNestedParts_ok : ∀ (parts : List String) (current : JsValue),
    (parts.all fun p => !endsWithBrk p) = true →
    ∃ v, getNestedParts parts current = .ok v := by
  intro parts
  induction parts with
  | nil => exact fun current _ => ⟨current, rfl⟩
  | cons part rest ih =>
    intro current h
    rw [List.all_cons, Bool.and_eq_true] at h
    obtain ⟨h1, h2⟩ := h
    rw [Bool.not_eq_true'] at h1
    cases current with
    | arr xs =>
        cases hp : parseIntJs part with
        | none => exact ⟨.undefined, by simp [getNestedParts, h1, hp]⟩
        | some i =>
            by_cases hi : i < 0 ∨ (xs.length : Int) ≤ i
            · exact ⟨.undefined, by simp [getNestedParts, h1, hp, hi]⟩
            · obtain ⟨v, hv⟩ := ih ((xs.get? i.toNat).getD .undefined) h2
              rw [List.get?_eq_getElem?] at hv
              exact ⟨v, by simp [getNestedParts, h1, hp, hi, hv]⟩
    | obj fs =>
        obtain ⟨v, hv⟩ := ih (lookupField fs part) h2
        exact ⟨v, by simp [getNestedParts, h1, hv]⟩
    | undefined => exact ⟨.undefined, by simp [getNestedParts, h1]⟩
    | null => exact ⟨.undefined, by simp [getNestedParts, h1]⟩
    | bool b => exact ⟨.undefined, by simp [getNestedParts, h1]⟩
    | num n => exact ⟨.undefined, by simp [getNestedParts, h1]⟩
    | str s => exact ⟨.undefined, by simp [getNestedParts, h1]⟩

lemma getNested_ok (root : JsValue) (path : String) (h : noBrackets path = true) :
    ∃ v, getNested root path = .ok v := by
  unfold getNested
  by_cases hr : jsTruthy root = false ∨ path = ""
  · rw [if_pos hr]; exact ⟨.undefined, rfl⟩
  · rw [if_neg hr]; exact getNestedParts_ok (splitChar '.' path) root h

/-! ## Claim C5 -/

/-- C5 (corrected), counterexample: on the root with a single key a and on
the path b.c with a bracket-suffixed final segment, the resolution of
getNested reaches the bracket branch with an undefined context and raises a
TypeError (current[arrayKey] with current undefined), modelled by
Except.error — it does not return the not-found sentinel.  The claim states
that resolution never raises on any record root and path. -/
theorem getNested_raises_on_bracket_segment :
    getNested (.obj [("a", .num 1)]) "b.c[]" = .error () := rfl

/-- C5 (corrected), amended claim: for every record root and every
dotted/array-indexed path without bracket-suffixed segments, resolution
returns the addressed value or the not-found sentinel and never raises;
a bracket-suffixed segment whose context is null or absent instead raises
a TypeError. -/
theorem getNested_total_without_bracket_segments :
    ∀ (root : JsValue) (path : String), noBrackets path = true →
    ∃ v, getNested root path = .ok v :=
  fun root path h => getNested_ok root path h

/-- C5 witness: the amended theorem applied to a concrete record and
path. -/
theorem getNested_total_without_bracket_segments_witness :
    noBrackets "treatmentTeam.oncologist" = true ∧
    ∃ v, getNested sampleValidRecord "treatmentTeam.oncologist" = .ok v :=
  ⟨rfl, getNested_total_without_bracket_segments sampleValidRecord "treatmentTeam.oncologist" rfl⟩

/-! ## Claim C1 -/

/-- C1 (corrected), counterexample: remote digest present, local digest
unavailable (getFileHash returned null), local modification time 10 at
least the remote modification time 5, force unset.  The claim requires
SkipUnchanged by its clause (b); the source requires the remote digest to
be absent before falling back to timestamps (line 403, the negated
remoteHash guard) and therefore downloads. -/
theorem syncDecision_counterexample :
    syncDecision false (some "abc123") none 10 5 = .Download ∧
    claimC1Decision false (some "abc123") none 10 5 = .SkipUnchanged :=
  ⟨rfl, rfl⟩

/-- C1 (corrected), amended claim: with force set the decision is always
Download; with force unset the decision is SkipUnchanged exactly when
either both digests are truthy and equal, or the remote digest is absent
and the local modification time is at least the remote one; in every other
case — including a present remote digest with an unavailable or different
local digest — the decision is Download. -/
theorem syncDecision_characterization :
    ∀ (remoteHash localHash : Option String) (localModified driveModified : Nat),
    syncDecision true remoteHash localHash localModified driveModified = .Download ∧
    (syncDecision false remoteHash localHash localModified driveModified = .SkipUnchanged ↔
      ((truthyHash remoteHash = true ∧ truthyHash localHash = true ∧ remoteHash = localHash) ∨
       (truthyHash remoteHash = false ∧ driveModified ≤ localModified))) := by
  intro rh lh lm dm
  refine ⟨by simp [syncDecision], ?_⟩
  constructor
  · intro h
    by_cases hb : (truthyHash rh && truthyHash lh && rh == lh) = true
    · left
      rw [Bool.and_eq_true, Bool.and_eq_true] at hb
      exact ⟨hb.1.1, hb.1.2, by simpa using hb.2⟩
    · right
      simp only [syncDecision, if_false, Bool.false_eq_true] at h
      rw [if_neg (by simpa using hb)] at h
      by_cases hc : truthyHash rh = false ∧ dm ≤ lm
      · exact hc
      · rw [if_neg hc] at h; exact absurd h (by simp)
  · intro h
    rcases h with ⟨h1, h2, h3⟩ | ⟨h1, h2⟩
    · simp [syncDecision, h1, h2, h3]
    · have hb : (truthyHash rh && truthyHash lh && rh == lh) = false := by
        simp [h1]
      simp [syncDecision, hb, h1, h2]

/-! ## Claim C2 -/

/-- C2 (confirmed): a remote object with a (truthy) name but no local copy
hits the pre-emptive readFileSync of line 379, which throws ENOENT; the
catch of line 380 records the object in the error list and continues, so
downloadFile (and generatePDF) are never invoked for it. -/
theorem new_remote_object_errors_without_download :
    ∀ (forceUpload : Bool) (file : DriveFile) (env : StepEnv),
    file.name ≠ "" → env.localInfo = none →
    processRemoteFile forceUpload file env = ⟨[file.name], [], [], false, false⟩ := by
  intro forceUpload file env h1 h2
  simp [processRemoteFile, h1, h2]

/-- C2 witness: a concrete brand-new remote object. -/
theorem new_remote_object_errors_without_download_witness :
    processRemoteFile false ⟨7, "new.json", "application/json", 10, false, none⟩
        ⟨none, true, some "out/p.pdf", true, true⟩
      = ⟨["new.json"], [], [], false, false⟩ :=
  new_remote_object_errors_without_download false
    ⟨7, "new.json", "application/json", 10, false, none⟩
    ⟨none, true, some "out/p.pdf", true, true⟩ (by decide) rfl

/-! ## Claim C3 -/

/-- C3 (code_bug): on an object whose downloaded content fails the JSON
parse on every attempt, the source streams the object seven times — the
rejection of the inner retry of line 214 propagates to the outer catch of
line 227 of the same invocation, which being below MAX_RETRIES retries the
whole attempt again — even though MAX_RETRIES is 3 and the terminal error
still reports 3 attempts.  On purely transient failures the bound of 3
attempts holds, with waits of 500 and 1000 milliseconds before attempts 2
and 3 as the claim states. -/
theorem downloadFile_corrupt_exceeds_attempt_bound :
    (downloadFile (fun _ => .corrupt) "data/x.json" 0 1).streams = 7 ∧
    (downloadFile (fun _ => .corrupt) "data/x.json" 0 1).result
      = .error "Failed to download data/x.json after 3 attempts" ∧
    (downloadFile (fun _ => .streamFailure) "data/x.json" 0 1).streams = 3 ∧
    (downloadFile (fun _ => .streamFailure) "data/x.json" 0 1).delays = [500, 1000] ∧
    (downloadFile (fun _ => .streamFailure) "data/x.json" 0 1).result
      = .error "Failed to download data/x.json after 3 attempts" := by
  refine ⟨?_, ?_, ?_, ?_, ?_⟩ <;> simp [downloadFile, MAX_RETRIES]

/-! ## Claim C10 -/

lemma driveFileMapLookup_eq_none (driveFiles : List DriveFile) (n : String)
    (h : ∀ df ∈ driveFiles, df.name ≠ n) :
    driveFileMapLookup driveFiles n = none := by
  induction driveFiles with
  | nil => rfl
  | cons df rest ih =>
    have h1 : (df.name == n) = false := by
      rw [beq_eq_false_iff_ne]; exact h df (List.mem_cons_self df rest)
    simp only [driveFileMapLookup, List.filter_cons, h1, Bool.false_eq_true, if_false]
    exact ih fun x hx => h x (List.mem_cons_of_mem df hx)

/-- C10 (confirmed): the timestamp filter of lines 324-335 never removes a
local-only candidate, because candidates exclude every enumerated remote
name and the timestamp map is keyed by those same names, so the lookup
always misses and the filter predicate is constantly true. -/
theorem filteredLocalCandidates_eq_localOnly :
    ∀ (dirListing : List String) (driveFiles : List DriveFile)
      (localMtime : String → Option Nat),
    filteredLocalCandidates dirListing driveFiles localMtime
      = localOnlyCandidates dirListing driveFiles := by
  intro dirListing driveFiles localMtime
  unfold filteredLocalCandidates
  rw [List.filter_eq_self]
  intro n hn
  unfold localOnlyCandidates at hn
  have hmem := List.of_mem_filter hn
  rw [Bool.and_eq_true] at hmem
  have h2 := hmem.2
  simp at h2
  rw [driveFileMapLookup_eq_none driveFiles n
    (fun df hdf => h2 df hdf)]

/-! ## Validator support lemmas -/

lemma resolvedValue_eq (data : JsValue) (path : String) (v : JsValue)
    (h : getNested data path = .ok v) : resolvedValue data path = v := by
  simp [resolvedValue, h]

lemma requiredFindings_eq_pure (data : JsValue) :
    ∀ fields : List String, (fields.all noBrackets) = true →
    requiredFindings data fields = .ok (requiredFindingsPure data fields) := by
  intro fields
  induction fields with
  | nil => intro _; rfl
  | cons f rest ih =>
    intro h
    rw [List.all_cons, Bool.and_eq_true] at h
    obtain ⟨v, hv⟩ := getNested_ok data f h.1
    have hr := ih h.2
    simp only [requiredFindings, hv, hr, requiredFindingsPure, List.filter_cons,
      resolvedValue_eq data f v hv]
    by_cases hb : requiredViolation v = true <;>
      simp [hb, requiredFindingsPure]

lemma recommendedWarnings_eq_pure (data : JsValue) :
    ∀ fields : List String, (fields.all noBrackets) = true →
    recommendedWarnings data fields = .ok (recommendedWarningsPure data fields) := by
  intro fields
  induction fields with
  | nil => intro _; rfl
  | cons f rest ih =>
    intro h
    rw [List.all_cons, Bool.and_eq_true] at h
    obtain ⟨v, hv⟩ := getNested_ok data f h.1
    have hr := ih h.2
    simp only [recommendedWarnings, hv, hr, recommendedWarningsPure, List.filter_cons,
      resolvedValue_eq data f v hv]
    by_cases hb : requiredViolation v = true <;>
      simp [hb, recommendedWarningsPure]

lemma elementFindings_eq_pure (arrayKey subPath : String)
    (h : noBrackets subPath = true) :
    ∀ (xs : List JsValue) (i : Nat),
    elementFindings arrayKey subPath i xs
      = .ok (elementFindingsPure arrayKey subPath i xs) := by
  intro xs
  induction xs with
  | nil => intro i; rfl
  | cons x rest ih =>
    intro i
    obtain ⟨v, hv⟩ := getNested_ok x subPath h
    simp only [elementFindings, elementFindingsPure, hv, ih (i + 1),
      resolvedValue_eq x subPath v hv]

lemma structuralFindingsField_eq_pure (data : JsValue) (field : String)
    (h : tier3FieldSafe field = true) :
    structuralFindingsField data field = .ok (structuralFieldPure data field) := by
  unfold tier3FieldSafe at h
  by_cases hc : strContains field "[]" = true
  · rw [if_pos hc, Bool.and_eq_true] at h
    obtain ⟨a, ha⟩ := getNested_ok data (arrayKeyOf field) h.1
    unfold structuralFindingsField structuralFieldPure
    rw [if_pos hc, if_pos hc, resolvedValue_eq data _ a ha]
    cases a with
    | arr xs =>
        cases xs with
        | nil => simp [ha]
        | cons x rest => simp [ha, elementFindings_eq_pure _ _ h.2]
    | undefined => simp [ha]
    | null => simp [ha]
    | bool b => simp [ha]
    | num n => simp [ha]
    | str s => simp [ha]
    | obj fs => simp [ha]
  · rw [if_neg hc] at h
    obtain ⟨v, hv⟩ := getNested_ok data field h
    unfold structuralFindingsField structuralFieldPure
    rw [if_neg hc, if_neg hc, resolvedValue_eq data field v hv]
    simp [hv]

lemma structuralFindings_eq_pure (data : JsValue) :
    ∀ fields : List String, (fields.all tier3FieldSafe) = true →
    structuralFindings data fields = .ok (structuralFindingsPure data fields) := by
  intro fields
  induction fields with
  | nil => intro _; rfl
  | cons f rest ih =>
    intro h
    rw [List.all_cons, Bool.and_eq_true] at h
    have hf := structuralFindingsField_eq_pure data f h.1
    have hr := ih h.2
    simp [structuralFindings, structuralFindingsPure, hf, hr]

lemma dobFindings_eq_pure (data : JsValue) :
    dobFindings data = .ok (dobFindingsPure data) := by
  obtain ⟨v, hv⟩ := getNested_ok data "patientDateOfBirth" rfl
  simp only [dobFindings, dobFindingsPure, hv, resolvedValue_eq data _ v hv]
  cases v with
  | str s => by_cases hs : s = "" <;> simp [hs]
  | undefined => rfl
  | null => rfl
  | bool b => rfl
  | num n => rfl
  | arr xs => rfl
  | obj fs => rfl

lemma validateJsonSchemaRun_eq_pure (data : JsValue) :
    validateJsonSchemaRun data = .ok (validateRunPure data) := by
  have h1 := requiredFindings_eq_pure data tier1Required rfl
  have h3 := structuralFindings_eq_pure data tier3StructuralRequired rfl
  have h2 := recommendedWarnings_eq_pure data tier2Recommended rfl
  have hd := dobFindings_eq_pure data
  simp [validateJsonSchemaRun, validateRunPure, h1, h3, h2, hd]

lemma validateJsonSchema_eq_pure (data : JsValue) :
    validateJsonSchema data = .ok (validateRunPure data).passed := by
  unfold validateJsonSchema
  rw [validateJsonSchemaRun_eq_pure data]
  rfl

lemma validateJsonSchema_false_of_ne_nil (data : JsValue)
    (h : (validateRunPure data).errorFindings ≠ []) :
    validateJsonSchema data = .ok false := by
  rw [validateJsonSchema_eq_pure]
  have hp : (validateRunPure data).passed = (validateRunPure data).errorFindings.isEmpty := rfl
  rw [hp]
  cases hl : (validateRunPure data).errorFindings with
  | nil => exact absurd hl h
  | cons a l => simp

lemma requiredFindingsPure_ne_nil (data : JsValue) (fields : List String) (field : String)
    (h1 : field ∈ fields) (h2 : requiredViolation (resolvedValue data field) = true) :
    requiredFindingsPure data fields ≠ [] := by
  intro hall
  unfold requiredFindingsPure at hall
  rw [List.map_eq_nil_iff, List.filter_eq_nil_iff] at hall
  exact hall field h1 (by simp [h2])

lemma flatMap_ne_nil_of_mem (fields : List String) (pf : String → List String) (f : String)
    (h1 : f ∈ fields) (h2 : pf f ≠ []) : fields.flatMap pf ≠ [] := by
  intro hall
  induction fields with
  | nil => cases h1
  | cons a rest ih =>
    rw [List.flatMap_cons, List.append_eq_nil] at hall
    rcases List.mem_cons.mp h1 with rfl | hm
    · exact h2 hall.1
    · exact ih hm hall.2

lemma validate_false_of_required (data : JsValue) (field : String)
    (h1 : field ∈ tier1Required)
    (h2 : requiredViolation (resolvedValue data field) = true) :
    validateJsonSchema data = .ok false := by
  apply validateJsonSchema_false_of_ne_nil
  intro hall
  have hsplit : requiredFindingsPure data tier1Required = [] := by
    have : (validateRunPure data).errorFindings
        = requiredFindingsPure data tier1Required
          ++ structuralFindingsPure data tier3StructuralRequired
          ++ dobFindingsPure data := rfl
    rw [this] at hall
    rw [List.append_eq_nil, List.append_eq_nil] at hall
    exact hall.1.1
  exact requiredFindingsPure_ne_nil data tier1Required field h1 h2 hsplit

lemma validate_false_of_structural (data : JsValue) (field : String)
    (h1 : field ∈ tier3StructuralRequired)
    (h2 : structuralFieldPure data field ≠ []) :
    validateJsonSchema data = .ok false := by
  apply validateJsonSchema_false_of_ne_nil
  intro hall
  have hsplit : structuralFindingsPure data tier3StructuralRequired = [] := by
    have : (validateRunPure data).errorFindings
        = requiredFindingsPure data tier1Required
          ++ structuralFindingsPure data tier3StructuralRequired
          ++ dobFindingsPure data := rfl
    rw [this] at hall
    rw [List.append_eq_nil, List.append_eq_nil] at hall
    exact hall.1.2
  exact flatMap_ne_nil_of_mem _ _ field h1 h2 hsplit

lemma elementFindingsPure_eq_range (ak sp : String) :
    ∀ (xs : List JsValue) (i : Nat),
    elementFindingsPure ak sp i xs =
      (List.range xs.length).filterMap fun j =>
        if requiredViolation (resolvedValue (xs.getD j .undefined) sp)
        then some ("Missing structural required field: " ++ ak ++ "[" ++
              toString (i + j) ++ "]." ++ sp)
        else none := by
  intro xs
  induction xs with
  | nil => intro i; rfl
  | cons x rest ih =>
    intro i
    rw [List.length_cons, List.range_succ_eq_map, List.filterMap_cons, List.filterMap_map]
    have hcomp :
        ((fun j => if requiredViolation (resolvedValue ((x :: rest).getD j .undefined) sp)
            then some ("Missing structural required field: " ++ ak ++ "[" ++
                  toString (i + j) ++ "]." ++ sp)
            else none) ∘ Nat.succ)
        = fun j => if requiredViolation (resolvedValue (rest.getD j .undefined) sp)
            then some ("Missing structural required field: " ++ ak ++ "[" ++
                  toString ((i + 1) + j) ++ "]." ++ sp)
            else none := by
      funext j
      have harith : i + (j + 1) = (i + 1) + j := by omega
      simp [Function.comp, List.getD_cons_succ, Nat.succ_eq_add_one, harith]
    rw [hcomp, ← ih (i + 1)]
    simp only [List.getD_cons_zero, Nat.add_zero]
    by_cases hb : requiredViolation (resolvedValue x sp) = true <;>
      simp [elementFindingsPure, hb]

/-! ## Claim C8 -/

/-- C8 (confirmed): for every record, a Required-tier path whose resolution
yields a value is a violation exactly when that value is undefined, null or
the empty string — in particular the values 0 and false are not violations —
and any such violation makes validateJsonSchema return false for the
record. -/
theorem required_tier_violations :
    ∀ (data : JsValue) (field : String) (v : JsValue),
    field ∈ tier1Required → getNested data field = .ok v →
    (requiredViolation v = true ↔ (v = .undefined ∨ v = .null ∨ v = .str "")) ∧
    (requiredViolation v = true → validateJsonSchema data = .ok false) ∧
    ((v = .num 0 ∨ v = .bool false) → requiredViolation v = false) := by
  intro data field v hmem hres
  refine ⟨?_, ?_, ?_⟩
  · cases v <;> simp [requiredViolation]
  · intro hviol
    exact validate_false_of_required data field hmem
      (by rw [resolvedValue_eq data field v hres]; exact hviol)
  · rintro (rfl | rfl) <;> rfl

/-- C8 witness: the empty record misses patientFirstName (resolution yields
undefined) and fails validation. -/
theorem required_tier_violations_witness :
    getNested (.obj []) "patientFirstName" = .ok .undefined ∧
    validateJsonSchema (.obj []) = .ok false :=
  ⟨rfl, (required_tier_violations (.obj []) "patientFirstName" .undefined
      (by decide) rfl).2.1 rfl⟩

/-! ## Claim C9 -/

/-- C9 (confirmed): for every record and array-prefixed StructuralRequired
path, when the arrayKey resolves to anything other than a non-empty array,
exactly one violation (for the array itself) is emitted, no per-element
checks run, and the record fails; when it resolves to a non-empty array,
the findings are exactly one flag per element index whose sub-path value is
absent, null or empty, and any flag fails the record. -/
theorem structural_array_check :
    ∀ (data : JsValue) (field : String) (a : JsValue),
    field ∈ tier3StructuralRequired → strContains field "[]" = true →
    getNested data (arrayKeyOf field) = .ok a →
    (isNonEmptyArr a = false →
        structuralFindingsField data field
          = .ok ["Missing or empty array for structural required field: " ++ arrayKeyOf field] ∧
        validateJsonSchema data = .ok false) ∧
    (∀ xs, a = .arr xs → xs ≠ [] →
        structuralFindingsField data field
          = .ok (claimC9ElementFindings (arrayKeyOf field) (subPathOf field) xs) ∧
        (claimC9ElementFindings (arrayKeyOf field) (subPathOf field) xs ≠ [] →
          validateJsonSchema data = .ok false)) := by
  intro data field a hmem hbr hres
  have hsafe : tier3FieldSafe field = true := by
    have hall : (tier3StructuralRequired.all tier3FieldSafe) = true := rfl
    exact List.all_eq_true.mp hall field hmem
  have hsub : noBrackets (subPathOf field) = true := by
    unfold tier3FieldSafe at hsafe
    rw [if_pos hbr, Bool.and_eq_true] at hsafe
    exact hsafe.2
  have heq := structuralFindingsField_eq_pure data field hsafe
  constructor
  · intro hne
    have hmsg : structuralFieldPure data field
        = ["Missing or empty array for structural required field: " ++ arrayKeyOf field] := by
      unfold structuralFieldPure
      rw [if_pos hbr, resolvedValue_eq data _ a hres]
      cases a with
      | arr xs =>
          cases xs with
          | nil => rfl
          | cons x rest => simp [isNonEmptyArr] at hne
      | undefined => rfl
      | null => rfl
      | bool b => rfl
      | num n => rfl
      | str s => rfl
      | obj fs => rfl
    refine ⟨by rw [heq, hmsg], ?_⟩
    exact validate_false_of_structural data field hmem (by rw [hmsg]; simp)
  · intro xs hxs hne
    subst hxs
    cases xs with
    | nil => exact absurd rfl hne
    | cons x rest =>
      have hflags : structuralFieldPure data field
          = claimC9ElementFindings (arrayKeyOf field) (subPathOf field) (x :: rest) := by
        unfold structuralFieldPure
        rw [if_pos hbr, resolvedValue_eq data _ _ hres]
        show elementFindingsPure (arrayKeyOf field) (subPathOf field) 0 (x :: rest) = _
        rw [elementFindingsPure_eq_range]
        unfold claimC9ElementFindings
        simp
      refine ⟨by rw [heq, hflags], ?_⟩
      intro hflagsne
      exact validate_false_of_structural data field hmem (by rw [hflags]; exact hflagsne)

/-- C9 witness: a record with tumors equal to the empty array produces
exactly the one array-level violation for the structural field
tumors[].name and fails validation. -/
theorem structural_array_check_witness :
    structuralFindingsField (.obj [("tumors", .arr [])]) "tumors[].name"
      = .ok ["Missing or empty array for structural required field: tumors"] ∧
    validateJsonSchema (.obj [("tumors", .arr [])]) = .ok false :=
  (structural_array_check (.obj [("tumors", .arr [])]) "tumors[].name" (.arr [])
      (by decide) rfl rfl).1 rfl

/-! ## Pass accounting lemmas -/

lemma foldl_applyStep (forceUpload : Bool) :
    ∀ (items : List (DriveFile × StepEnv)) (s : PassState),
    items.foldl (fun s fe => applyStep s (processRemoteFile forceUpload fe.1 fe.2)) s
      = ⟨s.skippedFiles ++ items.flatMap fun fe => (stepOf forceUpload fe).skippedAdded,
         s.uploadedPDFs ++ items.flatMap fun fe => (stepOf forceUpload fe).uploadedAdded,
         s.errors ++ items.flatMap fun fe => (stepOf forceUpload fe).errorsAdded⟩ := by
  intro items
  induction items with
  | nil => intro s; simp
  | cons fe rest ih =>
    intro s
    rw [List.foldl_cons, ih]
    simp [applyStep, stepOf, List.flatMap_cons, List.append_assoc]

lemma runPass_eq_flat (forceUpload : Bool) (items : List (DriveFile × StepEnv)) :
    runPass forceUpload items
      = ⟨items.flatMap fun fe => (stepOf forceUpload fe).skippedAdded,
         items.flatMap fun fe => (stepOf forceUpload fe).uploadedAdded,
         items.flatMap fun fe => (stepOf forceUpload fe).errorsAdded⟩ := by
  unfold runPass
  rw [foldl_applyStep]
  simp

/-! ## Claim C7 -/

/-- C7 (corrected), counterexample: a remote object whose download succeeds
and whose PDF generation fails (generatePDF catches internally and returns
null) is recorded in the skipped list, not in the error list — the
generation failure leaves errorsAdded empty even though generatePDF was
invoked and produced no artifact.  The claim requires a per-object entry in
the error list counted under errors in the summary. -/
theorem generation_failure_counterexample :
    processRemoteFile false ⟨1, "r.json", "application/json", 5, false, none⟩
        ⟨some ⟨true, 0, some "h1"⟩, true, none, false, true⟩
      = ⟨[], ["r.json"], [], true, true⟩ := rfl

/-- C7 (corrected), amended claim: whenever PDF generation for a record
fails, the generator returns null rather than throwing, so the orchestrator
records the object in the skipped list (counted under skipped in the final
summary) and appends nothing to the error list; processing continues to the
next object and the pass still completes, every other object contributing
its own effects to the summary accumulators. -/
theorem generation_failure_recorded_as_skip :
    ∀ (forceUpload : Bool) (file : DriveFile) (env : StepEnv) (info : LocalFileInfo)
      (pre post : List (DriveFile × StepEnv)),
    file.name ≠ "" → env.localInfo = some info → info.parses = true →
    syncDecision forceUpload file.md5Checksum info.hash info.mtime file.modifiedTime
      = .Download →
    env.downloadOk = true → env.genResult = none →
    processRemoteFile forceUpload file env = ⟨[], [file.name], [], true, true⟩ ∧
    (runPass forceUpload (pre ++ (file, env) :: post)).errors
      = (pre.flatMap fun fe => (stepOf forceUpload fe).errorsAdded)
        ++ (post.flatMap fun fe => (stepOf forceUpload fe).errorsAdded) ∧
    (runPass forceUpload (pre ++ (file, env) :: post)).skippedFiles
      = (pre.flatMap fun fe => (stepOf forceUpload fe).skippedAdded)
        ++ file.name :: (post.flatMap fun fe => (stepOf forceUpload fe).skippedAdded) := by
  intro forceUpload file env info pre post hname hlocal hparses hdec hdl hgen
  have hstep : processRemoteFile forceUpload file env = ⟨[], [file.name], [], true, true⟩ := by
    unfold processRemoteFile
    rw [if_neg hname, hlocal]
    simp only [hparses, hdec, hdl, hgen]
    simp
  refine ⟨hstep, ?_, ?_⟩ <;>
    simp [runPass_eq_flat, List.flatMap_append, List.flatMap_cons, stepOf, hstep]

/-- C7 witness: the amended theorem at a concrete object with a failing
generation, between empty neighbour lists. -/
theorem generation_failure_recorded_as_skip_witness :
    processRemoteFile false ⟨2, "s.json", "application/json", 9, false, none⟩
        ⟨some ⟨true, 3, none⟩, true, none, true, true⟩
      = ⟨[], ["s.json"], [], true, true⟩ ∧
    (runPass false [(⟨2, "s.json", "application/json", 9, false, none⟩,
        ⟨some ⟨true, 3, none⟩, true, none, true, true⟩)]).errors = [] ++ [] ∧
    (runPass false [(⟨2, "s.json", "application/json", 9, false, none⟩,
        ⟨some ⟨true, 3, none⟩, true, none, true, true⟩)]).skippedFiles
      = [] ++ "s.json" :: [] :=
  generation_failure_recorded_as_skip false
    ⟨2, "s.json", "application/json", 9, false, none⟩
    ⟨some ⟨true, 3, none⟩, true, none, true, true⟩ ⟨true, 3, none⟩ [] []
    (by decide) rfl rfl rfl rfl rfl

/-! ## Claim C4 -/

/-- C4 (corrected), counterexample: on a store holding two untrashed JSON
objects named a.json, the enumeration captured by the orchestrator (line
262, before dedupeDriveJsonFiles runs at line 315) contains both objects,
so the iterated list holds two objects with the same display name even
though the later tombstoning trashes the older duplicate (id 1).  The
claim states the tombstones are issued before enumeration results are
returned, making duplicate names unobservable. -/
theorem duplicate_names_reach_orchestrator :
    ((enumerationPipeline dupStoreExample).iteratedDriveFiles.map (·.name))
      = ["a.json", "a.json"] ∧
    ¬ ((enumerationPipeline dupStoreExample).iteratedDriveFiles.map (·.name)).Nodup ∧
    dedupeTrashedIds dupStoreExample = [1] :=
  ⟨rfl, by decide, rfl⟩

/-- C4 (corrected), amended claim: the tombstone requests for non-surviving
duplicates are issued only after the enumeration result has been captured
by the orchestrator; the iterated list is exactly the pre-tombstone
listing, unaffected by the deduplication, and it can therefore contain two
objects with the same display name (tombstoning takes effect only for
later passes). -/
theorem tombstoning_after_enumeration :
    (∀ store : List DriveFile,
      (enumerationPipeline store).iteratedDriveFiles = listJsonFilesQuery store ∧
      (enumerationPipeline store).storeAfter = applyDedupe store) ∧
    ¬ (∀ store : List DriveFile,
        ((enumerationPipeline store).iteratedDriveFiles.map (·.name)).Nodup) := by
  refine ⟨fun store => ⟨rfl, rfl⟩, fun hall => ?_⟩
  have := hall dupStoreExample
  revert this
  decide

/-! ## Claim C6 -/

/-- Descending order on modification times, the order established by the
sort of line 290. -/
def timeGE (a b : DriveFile) : Prop := b.modifiedTime ≤ a.modifiedTime

lemma insertByTimeDesc_perm (f : DriveFile) : ∀ l : List DriveFile,
    (insertByTimeDesc f l).Perm (f :: l) := by
  intro l
  induction l with
  | nil => exact List.Perm.refl _
  | cons g gs ih =>
    unfold insertByTimeDesc
    by_cases hlt : g.modifiedTime < f.modifiedTime
    · rw [if_pos hlt]
    · rw [if_neg hlt]
      exact List.Perm.trans (List.Perm.cons g ih) (List.Perm.swap f g gs)

lemma sortFold_perm : ∀ (l acc : List DriveFile),
    (l.foldl (fun acc f => insertByTimeDesc f acc) acc).Perm (l ++ acc) := by
  intro l
  induction l with
  | nil => intro acc; simp
  | cons f rest ih =>
    intro acc
    rw [List.foldl_cons]
    refine (ih (insertByTimeDesc f acc)).trans ?_
    have h1 : (rest ++ insertByTimeDesc f acc).Perm (rest ++ f :: acc) :=
      List.Perm.append_left rest (insertByTimeDesc_perm f acc)
    exact h1.trans List.perm_middle

lemma sortByTimeDesc_perm (l : List DriveFile) : (sortByTimeDesc l).Perm l := by
  have := sortFold_perm l []
  simpa [sortByTimeDesc] using this

lemma insertByTimeDesc_pairwise (f : DriveFile) : ∀ l : List DriveFile,
    l.Pairwise timeGE → (insertByTimeDesc f l).Pairwise timeGE := by
  intro l
  induction l with
  | nil => intro _; exact List.pairwise_singleton timeGE f
  | cons g gs ih =>
    intro hp
    rw [List.pairwise_cons] at hp
    unfold insertByTimeDesc
    by_cases hlt : g.modifiedTime < f.modifiedTime
    · rw [if_pos hlt, List.pairwise_cons]
      refine ⟨?_, ?_⟩
      · intro x hx
        rcases List.mem_cons.mp hx with rfl | hxg
        · exact le_of_lt hlt
        · exact le_trans (hp.1 x hxg) (le_of_lt hlt)
      · rw [List.pairwise_cons]; exact hp
    · rw [if_neg hlt, List.pairwise_cons]
      refine ⟨?_, ih hp.2⟩
      intro x hx
      have hmem := (insertByTimeDesc_perm f gs).mem_iff.mp hx
      rcases List.mem_cons.mp hmem with rfl | hxg
      · exact le_of_not_lt hlt
      · exact hp.1 x hxg

lemma sortFold_pairwise : ∀ (l acc : List DriveFile),
    acc.Pairwise timeGE →
    (l.foldl (fun acc f => insertByTimeDesc f acc) acc).Pairwise timeGE := by
  intro l
  induction l with
  | nil => intro acc h; exact h
  | cons f rest ih =>
    intro acc h
    rw [List.foldl_cons]
    exact ih _ (insertByTimeDesc_pairwise f acc h)

lemma sortByTimeDesc_pairwise (l : List DriveFile) :
    (sortByTimeDesc l).Pairwise timeGE :=
  sortFold_pairwise l [] List.Pairwise.nil

/-- C6 (confirmed): for every name group of the deduplication with more
than one object (and, as remote stores guarantee, pairwise distinct
identifiers), exactly one object of the group escapes tombstoning, and the
survivor — the head of the stable descending sort — carries the maximum
modification timestamp of the group; with equal timestamps there is still
exactly one survivor. -/
theorem dedupe_single_survivor :
    ∀ (fs : List DriveFile) (name : String) (g : List DriveFile),
    (name, g) ∈ groupByName fs → 1 < g.length → (g.map (·.id)).Nodup →
    ∀ newest dups, sortByTimeDesc g = newest :: dups →
    (g.filter fun f => !(((groupTrashed g).map (·.id)).contains f.id)).length = 1 ∧
    (∀ f ∈ g, f.modifiedTime ≤ newest.modifiedTime) := by
  intro fs name g hgrp hlen hnodup newest dups hsort
  have hperm : (sortByTimeDesc g).Perm g := sortByTimeDesc_perm g
  have hpermc : (newest :: dups).Perm g := hsort ▸ hperm
  have htr : groupTrashed g = dups := by
    unfold groupTrashed
    rw [if_pos hlen, hsort]
    rfl
  have hpw := sortByTimeDesc_pairwise g
  rw [hsort, List.pairwise_cons] at hpw
  have hmax : ∀ f ∈ g, f.modifiedTime ≤ newest.modifiedTime := by
    intro f hf
    have hmem : f ∈ newest :: dups := hpermc.mem_iff.mpr hf
    rcases List.mem_cons.mp hmem with rfl | hd
    · exact le_refl _
    · exact hpw.1 f hd
  refine ⟨?_, hmax⟩
  rw [htr]
  have hnodup2 : ((newest :: dups).map (·.id)).Nodup :=
    ((hpermc.map (·.id)).nodup_iff).mpr hnodup
  rw [List.map_cons, List.nodup_cons] at hnodup2
  have hfl : (g.filter fun f => !((dups.map (·.id)).contains f.id)).length
      = ((newest :: dups).filter fun f => !((dups.map (·.id)).contains f.id)).length :=
    ((hpermc.filter _).length_eq).symm
  rw [hfl, List.filter_cons]
  have hnewest : (!((dups.map (·.id)).contains newest.id)) = true := by
    simpa using hnodup2.1
  have hdups : (dups.filter fun f => !((dups.map (·.id)).contains f.id)) = [] := by
    rw [List.filter_eq_nil_iff]
    intro d hd
    simp only [Bool.not_eq_true', Bool.not_eq_true]
    simpa using List.mem_map_of_mem (·.id) hd
  rw [hnewest, hdups]
  simp

/-- C6 witness: the two same-named objects of dupStoreExample form one
group; exactly one survives and the survivor carries the larger
timestamp 20. -/
theorem dedupe_single_survivor_witness :
    (dupStoreExample.filter fun f =>
        !(((groupTrashed dupStoreExample).map (·.id)).contains f.id)).length = 1 ∧
    ∀ f ∈ dupStoreExample,
      f.modifiedTime
        ≤ (⟨2, "a.json", "application/json", 20, false, none⟩ : DriveFile).modifiedTime :=
  dedupe_single_survivor dupStoreExample "a.json" dupStoreExample
    (by decide) (by decide) (by decide)
    ⟨2, "a.json", "application/json", 20, false, none⟩
    [⟨1, "a.json", "application/json", 10, false, none⟩] rfl

end DhPdf
